import Mathlib

/-!
Shallow embedding of `src/darts/explainability/shap_explainer.py` (darts SHAP
explanation orchestration layer) and proofs about the claims of the spec.

Conventions:
- Python `str` values are Lean `String`s; feature-column names are modelled as
  `List Char` where string-structure reasoning is needed.
- Python exceptions are modelled by the `PyErr` type; functions that can raise
  return `Except PyErr _`.
- Numpy arrays are modelled as total functions from indices; pandas DataFrames
  are modelled by the fields the module reads (row count, row index, columns).
-/

namespace DartsShap

/-- Embeds the `_ShapMethod` enum (source lines 43-52). -/
inductive ShapMethod where
  | TREE
  | GRADIENT
  | DEEP
  | KERNEL
  | SAMPLING
  | PARTITION
  | LINEAR
  | PERMUTATION
  | ADDITIVE
deriving DecidableEq

/-- The `.value` attribute of each `_ShapMethod` member (source lines 44-52). -/
def methodValue : ShapMethod → Nat
  | .TREE => 0
  | .GRADIENT => 1
  | .DEEP => 2
  | .KERNEL => 3
  | .SAMPLING => 4
  | .PARTITION => 5
  | .LINEAR => 6
  | .PERMUTATION => 7
  | .ADDITIVE => 8

/-- Iteration order of `_ShapMethod` (Python `Enum` iterates in definition order). -/
def allShapMethods : List ShapMethod :=
  [.TREE, .GRADIENT, .DEEP, .KERNEL, .SAMPLING, .PARTITION, .LINEAR, .PERMUTATION, .ADDITIVE]

/-- Python exceptions raised by the module: `ValueError` (via `raise_log`/`raise_if`
or plain `raise`) and `TypeError` (raised by the interpreter itself, e.g. by
`str.join` on non-string items). -/
inductive PyErr where
  | valueError (msg : String)
  | typeError (msg : String)
deriving DecidableEq

/-- A Python value as it appears as an item of a list handed to `str.join`:
either a string or an integer. -/
inductive PyVal where
  | pyInt (n : Nat)
  | pyStr (s : String)
deriving DecidableEq

/-- Embeds Python `sep.join(items)`: raises `TypeError` as soon as an item is not
a string (Python's message also carries the item position; the position is
dropped here, the claims only depend on the exception's type). -/
def strJoinAux : List PyVal → Except PyErr (List String)
  | [] => .ok []
  | .pyStr s :: rest =>
    match strJoinAux rest with
    | .error e => .error e
    | .ok r => .ok (s :: r)
  | .pyInt _ :: _ => .error (.typeError "sequence item: expected str instance, int found")

/-- Python `sep.join(items)`. -/
def strJoin (sep : String) (items : List PyVal) : Except PyErr String :=
  match strJoinAux items with
  | .error e => .error e
  | .ok parts => .ok (String.intercalate sep parts)

/-! ### Explicit method resolution at `ShapExplainer.__init__` (source lines 135-147) -/

/-- The member table `_ShapMethod.__members__`: uppercase member name to member. -/
def shapMethodMembers : List (String × ShapMethod) :=
  [("TREE", .TREE), ("GRADIENT", .GRADIENT), ("DEEP", .DEEP), ("KERNEL", .KERNEL),
   ("SAMPLING", .SAMPLING), ("PARTITION", .PARTITION), ("LINEAR", .LINEAR),
   ("PERMUTATION", .PERMUTATION), ("ADDITIVE", .ADDITIVE)]

/-- The error message literal of source lines 142-144 (note: it does not mention
`permutation`). -/
def invalidShapMethodMsg : String :=
  "Invalid `shap_method`. Please choose one value among the following: ['partition', 'tree', 'kernel', 'sampling', 'linear', 'deep', 'gradient', 'additive']."

/-- Embeds Python `str.upper()` as a character-wise upper-casing (which agrees with
Python on the ASCII strings involved here). -/
def pyUpper (s : String) : String := ⟨s.data.map Char.toUpper⟩

/-- Embeds source lines 135-147: an explicit `shap_method` string is upper-cased and
looked up among the enum member names; `None` is kept as `None`. -/
def resolveShapMethod (shap_method : Option String) : Except PyErr (Option ShapMethod) :=
  match shap_method with
  | none => .ok none
  | some s =>
    match shapMethodMembers.lookup (pyUpper s) with
    | some m => .ok (some m)
    | none => .error (.valueError invalidShapMethodMsg)

/-- The nine method names as documented (spec: lower-case spellings). -/
def validMethodNames : List String :=
  ["permutation", "partition", "tree", "kernel", "sampling", "linear", "deep",
   "gradient", "additive"]

/-! ### Default-method policy table (source lines 388-429) and method selection
(source lines 561-567). -/

/-- Embeds the static class attribute
`_RegressionShapExplainers.default_sklearn_shap_explainers` verbatim,
keeping the source order and the source's comment grouping. -/
def default_sklearn_shap_explainers : List (String × ShapMethod) :=
  [ -- Gradient boosting models
   ("LGBMRegressor", .TREE),
   ("CatBoostRegressor", .TREE),
   ("XGBRegressor", .TREE),
   ("GradientBoostingRegressor", .TREE),
   -- Tree models
   ("DecisionTreeRegressor", .TREE),
   ("ExtraTreeRegressor", .TREE),
   -- Ensemble model
   ("AdaBoostRegressor", .PERMUTATION),
   ("BaggingRegressor", .PERMUTATION),
   ("ExtraTreesRegressor", .PERMUTATION),
   ("HistGradientBoostingRegressor", .PERMUTATION),
   ("RandomForestRegressor", .PERMUTATION),
   ("RidgeCV", .PERMUTATION),
   ("Ridge", .PERMUTATION),
   -- Linear models
   ("LinearRegression", .LINEAR),
   ("ARDRegression", .LINEAR),
   ("MultiTaskElasticNet", .LINEAR),
   ("MultiTaskElasticNetCV", .LINEAR),
   ("MultiTaskLasso", .LINEAR),
   ("MultiTaskLassoCV", .LINEAR),
   ("PassiveAggressiveRegressor", .LINEAR),
   ("PoissonRegressor", .LINEAR),
   ("QuantileRegressor", .LINEAR),
   ("RANSACRegressor", .LINEAR),
   ("GammaRegressor", .LINEAR),
   ("HuberRegressor", .LINEAR),
   ("BayesianRidge", .LINEAR),
   ("SGDRegressor", .LINEAR),
   ("TheilSenRegressor", .LINEAR),
   ("TweedieRegressor", .LINEAR),
   -- Gaussian process
   ("GaussianProcessRegressor", .PERMUTATION),
   -- neighbors
   ("KNeighborsRegressor", .PERMUTATION),
   ("RadiusNeighborsRegressor", .PERMUTATION),
   -- Neural network
   ("MLPRegressor", .PERMUTATION)]

/-- Embeds the method-selection step of `_build_explainer_sklearn`
(source lines 561-567): an explicit method wins; otherwise the class name is
looked up in the default table, with `KERNEL` as the fallback. -/
def selectShapMethod (model_name : String) (shap_method : Option ShapMethod) : ShapMethod :=
  match shap_method with
  | some m => m
  | none =>
    match default_sklearn_shap_explainers.lookup model_name with
    | some m => m
    | none => .KERNEL

/-! ### Per-estimator explainer builder (source lines 553-600). -/

/-- The parts of an sklearn estimator object the builder reads: the object itself,
its bound `predict` method, and its runtime class name (`type(m).__name__`). -/
structure SkModel (E P : Type) where
  obj : E
  predict : P
  className : String

/-- The keyword arguments forwarded to the engine constructors; the builder itself
only inspects `kwargs.get("feature_perturbation")` (source line 570). -/
structure Kwargs (K : Type) where
  feature_perturbation : Option String
  rest : K
deriving DecidableEq

/-- A constructed shap engine, recording the constructor used and the arguments
passed to it (source lines 569-591): `shap.TreeExplainer`,
`shap.PermutationExplainer`, `shap.KernelExplainer` (with `keep_index=True`),
`shap.LinearExplainer`, `shap.AdditiveExplainer`. -/
inductive ShapEngine (E P M K : Type) where
  | treeExplainer (est : E) (bg : Option M) (kwargs : K)
  | permutationExplainer (predictFn : P) (bg : M) (kwargs : K)
  | kernelExplainer (predictFn : P) (bg : M) (keepIndex : Bool) (kwargs : K)
  | linearExplainer (est : E) (bg : M) (kwargs : K)
  | additiveExplainer (est : E) (bg : M) (kwargs : K)
deriving DecidableEq

/-- Embeds `_RegressionShapExplainers._build_explainer_sklearn`
(source lines 553-600). The final `else` branch (reached for `GRADIENT` and
`SAMPLING`) evaluates `", ".join([e.value for e in _ShapMethod])` before the
`ValueError` can be raised; since the `.value`s are integers, that join itself
raises `TypeError`. -/
def buildExplainerSklearn {E P M K : Type} (model_sklearn : SkModel E P)
    (background_X : M) (shap_method : Option ShapMethod) (kwargs : Kwargs K) :
    Except PyErr (ShapEngine E P M (Kwargs K)) :=
  match selectShapMethod model_sklearn.className shap_method with
  | .TREE =>
    if kwargs.feature_perturbation = some "interventional" then
      .ok (.treeExplainer model_sklearn.obj (some background_X) kwargs)
    else
      .ok (.treeExplainer model_sklearn.obj none kwargs)
  | .PERMUTATION => .ok (.permutationExplainer model_sklearn.predict background_X kwargs)
  | .PARTITION => .ok (.permutationExplainer model_sklearn.predict background_X kwargs)
  | .KERNEL => .ok (.kernelExplainer model_sklearn.predict background_X true kwargs)
  | .LINEAR => .ok (.linearExplainer model_sklearn.obj background_X kwargs)
  | .DEEP => .ok (.linearExplainer model_sklearn.obj background_X kwargs)
  | .ADDITIVE => .ok (.additiveExplainer model_sklearn.obj background_X kwargs)
  | _ =>
    match strJoin ", " (allShapMethods.map (fun e => .pyInt (methodValue e))) with
    | .error e => .error e
    | .ok joined => .error (.valueError ("shap_method must be one of the following: " ++ joined))

/-! ### Feature-matrix builder: column names and the background-size guard
(`_create_regression_model_shap_X`, source lines 602-668). -/

/-- The decimal digit character for `n < 10`. -/
def digitChar (n : Nat) : Char := Char.ofNat (48 + n)

/-- Decimal digit characters of `n`, most significant first (mirrors Python `str`
on a non-negative integer). -/
def natChars (n : Nat) : List Char :=
  if _h : n < 10 then [digitChar n]
  else natChars (n / 10) ++ [digitChar (n % 10)]
termination_by n
decreasing_by exact Nat.div_lt_self (by omega) (by omega)

/-- Mirrors Python `str` on an `int` (the lag values interpolated into the column
names at source lines 651, 655 and 659). -/
def intChars (i : Int) : List Char :=
  if i < 0 then '-' :: natChars i.natAbs else natChars i.toNat

/-- Characters that can appear in Python `str(int)`: decimal digits and the minus
sign. -/
def isNumC (c : Char) : Bool := c.isDigit || c == '-'

/-- The `"_target_lag"` piece of a target-lag column name (source line 651). -/
def sepTargetChars : List Char := "_target_lag".data

/-- The `"_past_cov_lag"` piece of a past-covariate column name (source line 655). -/
def sepPastChars : List Char := "_past_cov_lag".data

/-- The `"_fut_cov_lag"` piece of a future-covariate column name (source line 659). -/
def sepFutChars : List Char := "_fut_cov_lag".data

/-- One column name: `component + sep + str(lag)`. -/
def mkName (comp : List Char) (sep : List Char) (lag : Int) : List Char :=
  comp ++ sep ++ intChars lag

/-- The names contributed by one covariate kind: outer loop over lag values, inner
loop over components (source lines 648-659); a `None` lag list contributes nothing
(`if lags_list:` is falsy, as it also is for an empty list, for which the loop body
never runs either). -/
def kindNames (lags : Option (List Int)) (comps : List (List Char)) (sep : List Char) :
    List (List Char) :=
  match lags with
  | none => []
  | some ls => ls.flatMap (fun lag => comps.map (fun c => mkName c sep lag))

/-- `lags_names_list` as built at source lines 647-659: target lags, then
past-covariate lags, then future-covariate lags. -/
def lagsNamesList
    (lags_list lags_past_covariates_list lags_future_covariates_list : Option (List Int))
    (target_names past_covariates_names future_covariates_names : List (List Char)) :
    List (List Char) :=
  kindNames lags_list target_names sepTargetChars
    ++ kindNames lags_past_covariates_list past_covariates_names sepPastChars
    ++ kindNames lags_future_covariates_list future_covariates_names sepFutChars

/-- What the module reads from the result of the external `create_lagged_data`
collaborator (source lines 622-630): the row count of `X` and the first time
index `indexes[0]`. -/
structure LaggedData (ι : Type) where
  nrows : Nat
  idx : List ι

/-- Source line 40. -/
def MIN_BACKGROUND_SAMPLE : Nat := 10

/-- The parts of the DataFrame returned by `_create_regression_model_shap_X` that
the claims are about. `rowIndex = none` models the default `RangeIndex` of the
`train=True` branch (source line 633); `some` carries `indexes[0]`
(source line 641). -/
structure ShapXFrame (ι : Type) where
  nrows : Nat
  rowIndex : Option (List ι)
  columnNames : List (List Char)

/-- Embeds the row-count effect of the optional `shap.utils.sample` call
(source lines 643-644): Python's `if n_samples:` treats `None` and `0` as falsy,
and `shap.utils.sample(X, k)` returns `X` unchanged when `k >= len(X)` and a
random `k`-row subsample otherwise (which also restricts the row index; the
claims do not depend on which rows are kept). -/
def sampleRows (rows : Nat) (n_samples : Option Nat) : Nat :=
  match n_samples with
  | none => rows
  | some k => if k = 0 then rows else min k rows

/-- The insufficient-background error (source lines 635-639). -/
def insufficientBackgroundErr : PyErr :=
  .valueError "The number of samples in the background dataset is too small to compute shap values."

/-- Embeds `_RegressionShapExplainers._create_regression_model_shap_X`
(source lines 602-668) over the abstracted output of `create_lagged_data`.
In source order: the `train=True` branch wraps `X` in a default-indexed DataFrame
and raises when `len(X) <= MIN_BACKGROUND_SAMPLE`; the `train=False` branch keeps
`indexes[0]` as the row index and performs no row-count check; then the optional
sub-sampling; then the columns are renamed positionally to `lags_names_list`. -/
def createRegressionModelShapX {ι : Type}
    (lags_list lags_past lags_future : Option (List Int))
    (target_names past_names future_names : List (List Char))
    (lagged : LaggedData ι) (n_samples : Option Nat) (train : Bool) :
    Except PyErr (ShapXFrame ι) :=
  if train then
    if lagged.nrows ≤ MIN_BACKGROUND_SAMPLE then
      .error insufficientBackgroundErr
    else
      .ok { nrows := sampleRows lagged.nrows n_samples
            rowIndex := none
            columnNames := lagsNamesList lags_list lags_past lags_future
                            target_names past_names future_names }
  else
    .ok { nrows := sampleRows lagged.nrows n_samples
          rowIndex := some lagged.idx
          columnNames := lagsNamesList lags_list lags_past lags_future
                          target_names past_names future_names }

/-! ### Multi-output dispatcher: handle construction
(`_RegressionShapExplainers.__init__`, source lines 431-488). -/

/-- The `self.explainers` attribute after `_RegressionShapExplainers.__init__`:
either the per-(horizon, target) grid of the `MultiOutputRegressor` case
(source lines 474-484) or the single handle of the joint case (lines 485-488). -/
inductive ExplainersRepr (H : Type) where
  | grid (g : List (List H))
  | single (h : H)

/-- Sequences a list of fallible computations, propagating the first error (the
behavior of a Python `for` loop whose body may raise). -/
def exceptMapList {ε α β : Type} (f : α → Except ε β) : List α → Except ε (List β)
  | [] => .ok []
  | a :: as =>
    match f a with
    | .error e => .error e
    | .ok b =>
      match exceptMapList f as with
      | .error e => .error e
      | .ok bs => .ok (b :: bs)

/-- Embeds the explainer-construction part of `_RegressionShapExplainers.__init__`
(source lines 446-450 and 474-488): when the wrapped estimator is a
`MultiOutputRegressor`, one handle is built per `(horizon i < n, target j <
target_dim)` from `model.get_multioutput_estimator(horizon=i, target_dim=j)` and
the shared `background_X`; otherwise a single handle is built from `model.model`
and the full `background_X`. -/
def initExplainers {E P M K : Type} (is_multiOutputRegressor : Bool) (n target_dim : Nat)
    (get_multioutput_estimator : Nat → Nat → SkModel E P) (model_model : SkModel E P)
    (background_X : M) (shap_method : Option ShapMethod) (kwargs : Kwargs K) :
    Except PyErr (ExplainersRepr (ShapEngine E P M (Kwargs K))) :=
  if is_multiOutputRegressor then
    match exceptMapList (fun i =>
        exceptMapList (fun j =>
            buildExplainerSklearn (get_multioutput_estimator i j) background_X
              shap_method kwargs)
          (List.range target_dim))
        (List.range n) with
    | .error e => .error e
    | .ok g => .ok (.grid g)
  else
    match buildExplainerSklearn model_model background_X shap_method kwargs with
    | .error e => .error e
    | .ok h => .ok (.single h)

/-! ### Multi-output dispatcher: explanation retrieval for the joint case
(`_RegressionShapExplainers.shap_explanations`, source lines 490-551). -/

/-- A raw `shap.Explanation` with a 3-D `values` tensor (row, feature, output
column) and 2-D `base_values` (row, output column), as returned by the single
joint handle of a model that is not `single_output`. -/
structure RawExplanation3 (α : Type) where
  values : Nat → Nat → Nat → α
  base_values : Nat → Nat → α
  feature_names : List String

/-- A raw `shap.Explanation` of a `single_output` model: 2-D `values`
(row, feature) and 1-D `base_values` (row). -/
structure RawExplanation2 (α : Type) where
  values : Nat → Nat → α
  base_values : Nat → α
  feature_names : List String

/-- The row index of the foreground DataFrame handed to `shap_explanations`. -/
structure Frame (ι : Type) where
  index : List ι

/-- One entry of the returned nested dictionary: a `shap.Explanation` whose
`base_values` has been flattened to one dimension and which carries
`feature_names` and the stamped `time_index`. -/
structure OutExplanation (α ι : Type) where
  values : Nat → Nat → α
  base_values : Nat → α
  feature_names : List String
  time_index : List ι

/-- Embeds the non-`MultiOutputRegressor`, non-`single_output` branch of
`shap_explanations` (source lines 527-549): the single handle is invoked once on
the full foreground matrix (line 529; the first component of the result records
the list of arguments the handle is invoked on), and each requested `(h, t)` gets
a fresh `shap.Explanation` holding `values[:, :, target_dim * h + t_idx]` (line
534-538), `base_values[:, target_dim * h + t_idx].ravel()` (lines 539-541; the
slice is already one-dimensional, so `ravel` returns it unchanged), the raw
result's `feature_names` (line 546) and the foreground index (line 547). -/
def shapExplanationsJointMulti {α ι : Type} (target_dim : Nat)
    (explainer : Frame ι → RawExplanation3 α) (foreground_X : Frame ι)
    (horizons : List Nat) (target_names : List String) :
    List (Frame ι) × List (Nat × List (String × OutExplanation α ι)) :=
  let raw := explainer foreground_X
  ([foreground_X],
   horizons.map (fun h =>
     (h, target_names.enum.map (fun p =>
       (p.2,
        { values := fun r f => raw.values r f (target_dim * h + p.1)
          base_values := fun r => raw.base_values r (target_dim * h + p.1)
          feature_names := raw.feature_names
          time_index := foreground_X.index })))))

/-- Embeds the non-`MultiOutputRegressor`, `single_output` branch of
`shap_explanations` (source lines 527-549, taking the `else` of line 533): the
raw untensored result is used directly without slicing (line 543), its
`base_values` flattened by `ravel` (line 544; identity on the already-1-D
array), with `feature_names` and the foreground index attached. -/
def shapExplanationsJointSingle {α ι : Type}
    (explainer : Frame ι → RawExplanation2 α) (foreground_X : Frame ι)
    (horizons : List Nat) (target_names : List String) :
    List (Frame ι) × List (Nat × List (String × OutExplanation α ι)) :=
  let raw := explainer foreground_X
  ([foreground_X],
   horizons.map (fun h =>
     (h, target_names.enum.map (fun p =>
       (p.2,
        { values := raw.values
          base_values := raw.base_values
          feature_names := raw.feature_names
          time_index := foreground_X.index })))))

/-! ### Argument validation (`ShapExplainer._check_horizons_and_targets`,
source lines 355-377, and `ShapExplainer.explain`, lines 163-236). -/

/-- The error of source lines 357-365. -/
def targetNamesErr : PyErr :=
  .valueError "One of the target names doesn't exist. Please review your target_names input"

/-- The error of source lines 370-373. -/
def horizonsTooLargeErr : PyErr :=
  .valueError "One of the horizons is too large. Please review your horizons input."

/-- The error Python's built-in `max` raises on an empty sequence. -/
def pyEmptyMaxErr : PyErr := .valueError "max() arg is an empty sequence"

/-- Embeds the target-name half of `_check_horizons_and_targets`
(source lines 356-367): an explicit list is rejected when any of its names is not
a known target component; `None` defaults to all known target components. -/
def checkTargetsPart (known_targets : List String) (target_names : Option (List String)) :
    Except PyErr (List String) :=
  match target_names with
  | some ts =>
    if ts.any (fun t => !(known_targets.contains t)) then .error targetNamesErr
    else .ok ts
  | none => .ok known_targets

/-- Embeds the horizon half of `_check_horizons_and_targets` (source lines
369-375): Python evaluates `max(horizons)` and `min(horizons)` (the former raising
`ValueError` on an empty sequence before the range test can run) and rejects when
`max(horizons) > n - 1` or `min(horizons) < 0`; `None` defaults to `range(n)`. -/
def checkHorizonsPart (n : Nat) (horizons : Option (List Int)) : Except PyErr (List Int) :=
  match horizons with
  | some [] => .error pyEmptyMaxErr
  | some (a :: as) =>
    if as.foldl max a > (n : Int) - 1 || as.foldl min a < 0 then .error horizonsTooLargeErr
    else .ok (a :: as)
  | none => .ok ((List.range n).map (fun i => (i : Int)))

/-- `ShapExplainer._check_horizons_and_targets` (source lines 355-377): targets
are validated first, then horizons. -/
def checkHorizonsAndTargets (n : Nat) (known_targets : List String)
    (horizons : Option (List Int)) (target_names : Option (List String)) :
    Except PyErr (List Int × List String) :=
  match checkTargetsPart known_targets target_names with
  | .error e => .error e
  | .ok ts =>
    match checkHorizonsPart n horizons with
    | .error e => .error e
    | .ok hs => .ok (hs, ts)

/-- Embeds the validation-then-computation structure of `ShapExplainer.explain`
(source lines 163-236): `_check_horizons_and_targets` runs at line 202 before any
foreground matrix is built or any explanation is computed (the loop starting at
line 208); `compute` stands for that whole downstream computation, applied to the
resolved horizons and target names. -/
def explainValidated {ρ : Type} (n : Nat) (known_targets : List String)
    (horizons : Option (List Int)) (target_names : Option (List String))
    (compute : List Int → List String → ρ) : Except PyErr ρ :=
  match checkHorizonsAndTargets n known_targets horizons target_names with
  | .error e => .error e
  | .ok (hs, ts) => .ok (compute hs ts)

/-! ### Generic support lemmas -/

/-- A lookup over an association list whose keys all differ from the query misses. -/
theorem lookup_eq_none_of_forall {β : Type} (k : String) :
    ∀ (l : List (String × β)), (∀ p ∈ l, k ≠ p.1) → l.lookup k = none
  | [], _ => rfl
  | p :: ps, h => by
    have h1 : k ≠ p.1 := h p (List.mem_cons_self p ps)
    have hb : (k == p.1) = false := beq_eq_false_iff_ne.mpr h1
    cases p with
    | mk a b =>
      simp only [List.lookup]
      rw [hb]
      exact lookup_eq_none_of_forall k ps (fun q hq => h q (List.mem_cons_of_mem _ hq))

/-- Boolean test that `nd` is an initial segment of `hay`. -/
def isPreB : List Char → List Char → Bool
  | [], _ => true
  | _ :: _, [] => false
  | a :: as, b :: bs => a == b && isPreB as bs

/-- Boolean substring test on character lists. -/
def containsSubAux (nd : List Char) : List Char → Bool
  | [] => isPreB nd []
  | c :: cs => isPreB nd (c :: cs) || containsSubAux nd cs

/-- `nd` occurs as a contiguous substring of `hay`. -/
def containsSub (nd hay : String) : Bool := containsSubAux nd.data hay.data

/-! ### C9: partition builds the permutation engine, deep builds the linear engine -/

/-- C9: in `_build_explainer_sklearn`, for the same estimator, background matrix
and options, resolving the partition method constructs exactly the same engine
(same constructor, same arguments) as resolving the permutation method, and
resolving the deep method constructs exactly the same engine as resolving the
linear method (source lines 574-589). -/
theorem partition_permutation_deep_linear_same_engine {E P M K : Type}
    (m : SkModel E P) (bg : M) (kwargs : Kwargs K) :
    buildExplainerSklearn m bg (some .PARTITION) kwargs
        = buildExplainerSklearn m bg (some .PERMUTATION) kwargs
      ∧ buildExplainerSklearn m bg (some .DEEP) kwargs
        = buildExplainerSklearn m bg (some .LINEAR) kwargs :=
  ⟨rfl, rfl⟩

/-! ### C7: the unhandled-method branch of the builder -/

/-- C7 (divergence evidence): for the method variants not handled by the builder
dispatch (`GRADIENT` and `SAMPLING`), the `else` branch first evaluates
`", ".join([e.value for e in _ShapMethod])` over the integer enum `.value`s, so
the builder raises `TypeError` from `join` instead of the intended `ValueError`
whose message would enumerate the supported method names. -/
theorem unhandled_method_raises_join_typeerror {E P M K : Type}
    (m : SkModel E P) (bg : M) (kwargs : Kwargs K) :
    buildExplainerSklearn m bg (some .GRADIENT) kwargs
        = .error (.typeError "sequence item: expected str instance, int found")
      ∧ buildExplainerSklearn m bg (some .SAMPLING) kwargs
        = .error (.typeError "sequence item: expected str instance, int found")
      ∧ (∀ msg, buildExplainerSklearn m bg (some .GRADIENT) kwargs
          ≠ .error (.valueError msg)) :=
  ⟨rfl, rfl, fun _ h => by simp [buildExplainerSklearn, selectShapMethod, strJoin,
    strJoinAux, allShapMethods, methodValue] at h⟩

/-! ### C8: explicit method-string resolution at construction -/

/-- The eight method names enumerated in the error-message literal of source
lines 142-144. -/
def listedMethodNames : List String :=
  ["partition", "tree", "kernel", "sampling", "linear", "deep", "gradient", "additive"]

/-- C8 counterexample: the unrecognized string "foo" is rejected with the message
of source lines 142-144, but although "permutation" is one of the nine valid
method names (it is accepted and mapped to its variant), the message does not
contain it, so the message does not list the valid method names. -/
theorem invalid_method_error_omits_permutation :
    resolveShapMethod (some "foo") = .error (.valueError invalidShapMethodMsg)
      ∧ "permutation" ∈ validMethodNames
      ∧ resolveShapMethod (some "permutation") = .ok (some .PERMUTATION)
      ∧ containsSub "permutation" invalidShapMethodMsg = false :=
  ⟨rfl, by decide, rfl, by decide⟩

/-- C8 (amended): an explicit method string is resolved case-insensitively
against the nine member names (a string whose upper-casing equals a member name
is accepted and mapped to that member's variant) and an unrecognized string is
rejected with an invalid-configuration error; the error message lists eight of
the nine valid method names, every valid name except "permutation". -/
theorem resolve_method_case_insensitive (s : String) :
    (∀ m ∈ shapMethodMembers, pyUpper s = m.1 →
        resolveShapMethod (some s) = .ok (some m.2))
      ∧ ((∀ m ∈ shapMethodMembers, pyUpper s ≠ m.1) →
          resolveShapMethod (some s) = .error (.valueError invalidShapMethodMsg))
      ∧ (∀ nm ∈ listedMethodNames, containsSub nm invalidShapMethodMsg = true)
      ∧ listedMethodNames = validMethodNames.erase "permutation" := by
  refine ⟨?_, ?_, by decide, by decide⟩
  · intro m hm heq
    fin_cases hm <;> simp_all [resolveShapMethod] <;> rfl
  · intro hall
    have hnone : shapMethodMembers.lookup (pyUpper s) = none :=
      lookup_eq_none_of_forall (pyUpper s) shapMethodMembers hall
    simp [resolveShapMethod, hnone]

/-- Instantiation of `resolve_method_case_insensitive`: a mixed-casing spelling
of "permutation" is accepted, and "xyz" is rejected with the message of source
lines 142-144. -/
theorem resolve_method_case_insensitive_witness :
    resolveShapMethod (some "pErMuTaTiOn") = .ok (some .PERMUTATION)
      ∧ resolveShapMethod (some "xyz") = .error (.valueError invalidShapMethodMsg) :=
  ⟨(resolve_method_case_insensitive "pErMuTaTiOn").1 ("PERMUTATION", .PERMUTATION)
      (by decide) (by decide),
    (resolve_method_case_insensitive "xyz").2.1 (by decide)⟩

/-! ### C3: default-method selection from the static table -/

/-- The class names mapped to the tree method by the table (its "Gradient
boosting models" and "Tree models" sections). -/
def treeDefaultNames : List String :=
  ["LGBMRegressor", "CatBoostRegressor", "XGBRegressor", "GradientBoostingRegressor",
   "DecisionTreeRegressor", "ExtraTreeRegressor"]

/-- The class names mapped to the linear method by the table (its "Linear models"
section). -/
def linearDefaultNames : List String :=
  ["LinearRegression", "ARDRegression", "MultiTaskElasticNet", "MultiTaskElasticNetCV",
   "MultiTaskLasso", "MultiTaskLassoCV", "PassiveAggressiveRegressor", "PoissonRegressor",
   "QuantileRegressor", "RANSACRegressor", "GammaRegressor", "HuberRegressor",
   "BayesianRidge", "SGDRegressor", "TheilSenRegressor", "TweedieRegressor"]

/-- The class names mapped to the permutation method by the table (its "Ensemble
model", "Gaussian process", "neighbors" and "Neural network" sections). -/
def permutationDefaultNames : List String :=
  ["AdaBoostRegressor", "BaggingRegressor", "ExtraTreesRegressor",
   "HistGradientBoostingRegressor", "RandomForestRegressor", "RidgeCV", "Ridge",
   "GaussianProcessRegressor", "KNeighborsRegressor", "RadiusNeighborsRegressor",
   "MLPRegressor"]

/-- C3: with no explicit method, the builder selects the method from the
estimator's class name via the static default table: every name of the table's
tree group maps to the tree method, every name of its linear group to the linear
method, every name of its permutation (ensemble/gaussian-process/neighbor/neural)
group to the permutation method, and any class name not present in the table
falls back to the kernel method. The three groups cover the whole table. -/
theorem default_method_table_policy :
    (∀ nm ∈ treeDefaultNames, selectShapMethod nm none = .TREE)
      ∧ (∀ nm ∈ linearDefaultNames, selectShapMethod nm none = .LINEAR)
      ∧ (∀ nm ∈ permutationDefaultNames, selectShapMethod nm none = .PERMUTATION)
      ∧ (∀ p ∈ default_sklearn_shap_explainers,
          p.1 ∈ treeDefaultNames ∨ p.1 ∈ linearDefaultNames ∨ p.1 ∈ permutationDefaultNames)
      ∧ (∀ nm : String, (∀ p ∈ default_sklearn_shap_explainers, nm ≠ p.1) →
          selectShapMethod nm none = .KERNEL) := by
  refine ⟨by decide, by decide, by decide, by decide, ?_⟩
  intro nm h
  simp [selectShapMethod, lookup_eq_none_of_forall nm _ h]

/-- Instantiation of `default_method_table_policy` at one name per group and at a
name absent from the table. -/
theorem default_method_table_policy_witness :
    selectShapMethod "LGBMRegressor" none = .TREE
      ∧ selectShapMethod "LinearRegression" none = .LINEAR
      ∧ selectShapMethod "MLPRegressor" none = .PERMUTATION
      ∧ selectShapMethod "SupportVectorRegressor" none = .KERNEL :=
  ⟨default_method_table_policy.1 "LGBMRegressor" (by decide),
    default_method_table_policy.2.1 "LinearRegression" (by decide),
    default_method_table_policy.2.2.1 "MLPRegressor" (by decide),
    default_method_table_policy.2.2.2.2 "SupportVectorRegressor" (by decide)⟩

/-! ### C5: the background-size guard -/

/-- C5: building the background matrix (`train=True`) raises the
insufficient-data error iff the lagged matrix's row count is at most
`MIN_BACKGROUND_SAMPLE = 10` — in particular it fails at exactly 10 rows and
succeeds at exactly 11 rows — while foreground construction (`train=False`)
performs no such check and succeeds for every row count. -/
theorem background_min_sample_guard {ι : Type}
    (lt lp lf : Option (List Int)) (tc pc fc : List (List Char))
    (lagged : LaggedData ι) (ns : Option Nat) :
    ((createRegressionModelShapX lt lp lf tc pc fc lagged ns true
          = .error insufficientBackgroundErr)
        ↔ lagged.nrows ≤ MIN_BACKGROUND_SAMPLE)
      ∧ (∃ x, createRegressionModelShapX lt lp lf tc pc fc lagged ns false = .ok x)
      ∧ createRegressionModelShapX lt lp lf tc pc fc ⟨10, lagged.idx⟩ ns true
          = .error insufficientBackgroundErr
      ∧ (∃ x, createRegressionModelShapX lt lp lf tc pc fc ⟨11, lagged.idx⟩ ns true = .ok x) := by
  refine ⟨⟨fun h => ?_, fun h => by simp [createRegressionModelShapX, h]⟩, ⟨_, rfl⟩, ?_, ?_⟩
  · by_contra hgt
    simp [createRegressionModelShapX, hgt] at h
  · simp [createRegressionModelShapX, MIN_BACKGROUND_SAMPLE]
  · exact ⟨⟨sampleRows 11 ns, none, lagsNamesList lt lp lf tc pc fc⟩,
      by simp [createRegressionModelShapX, MIN_BACKGROUND_SAMPLE]⟩

/-! ### C10 and C6: horizon and target validation -/

/-- The left fold of `max` over `a :: as` (Python `max(horizons)`) is a member of
the list and bounds every member. -/
theorem foldl_max_spec (a : Int) (as : List Int) :
    as.foldl max a ∈ a :: as ∧ ∀ x ∈ a :: as, x ≤ as.foldl max a := by
  induction as generalizing a with
  | nil => simp
  | cons b bs ih =>
    obtain ⟨ihmem, ihle⟩ := ih (max a b)
    have hfold : (b :: bs).foldl max a = bs.foldl max (max a b) := rfl
    have hmaxle : max a b ≤ bs.foldl max (max a b) := ihle _ (List.mem_cons_self _ _)
    refine ⟨?_, ?_⟩
    · rw [hfold]
      rcases List.mem_cons.mp ihmem with hm | hm
      · rcases max_choice a b with hab | hab <;> rw [hm, hab] <;> simp
      · simp [List.mem_cons, hm]
    · intro x hx
      rw [hfold]
      rcases List.mem_cons.mp hx with hxa | hx2
      · exact le_trans (le_trans hxa.le (le_max_left a b)) hmaxle
      · rcases List.mem_cons.mp hx2 with hxb | hxbs
        · exact le_trans (le_trans hxb.le (le_max_right a b)) hmaxle
        · exact ihle x (List.mem_cons_of_mem _ hxbs)

/-- The left fold of `min` over `a :: as` (Python `min(horizons)`) is a member of
the list and is below every member. -/
theorem foldl_min_spec (a : Int) (as : List Int) :
    as.foldl min a ∈ a :: as ∧ ∀ x ∈ a :: as, as.foldl min a ≤ x := by
  induction as generalizing a with
  | nil => simp
  | cons b bs ih =>
    obtain ⟨ihmem, ihle⟩ := ih (min a b)
    have hfold : (b :: bs).foldl min a = bs.foldl min (min a b) := rfl
    have hminle : bs.foldl min (min a b) ≤ min a b := ihle _ (List.mem_cons_self _ _)
    refine ⟨?_, ?_⟩
    · rw [hfold]
      rcases List.mem_cons.mp ihmem with hm | hm
      · rcases min_choice a b with hab | hab <;> rw [hm, hab] <;> simp
      · simp [List.mem_cons, hm]
    · intro x hx
      rw [hfold]
      rcases List.mem_cons.mp hx with hxa | hx2
      · exact le_trans (le_trans hminle (min_le_left a b)) hxa.ge
      · rcases List.mem_cons.mp hx2 with hxb | hxbs
        · exact le_trans (le_trans hminle (min_le_right a b)) hxb.ge
        · exact ihle x (List.mem_cons_of_mem _ hxbs)

/-- The boolean tested at source line 371 is true iff some requested horizon lies
outside `[0, n-1]`. -/
theorem horizons_cond_true_iff (n : Nat) (a : Int) (as : List Int) :
    (decide (as.foldl max a > (n : Int) - 1) || decide (as.foldl min a < 0)) = true
      ↔ ∃ h ∈ a :: as, ¬(0 ≤ h ∧ h ≤ (n : Int) - 1) := by
  have hmax := foldl_max_spec a as
  have hmin := foldl_min_spec a as
  simp only [Bool.or_eq_true, decide_eq_true_eq]
  constructor
  · rintro (hgt | hlt)
    · exact ⟨as.foldl max a, hmax.1, by omega⟩
    · exact ⟨as.foldl min a, hmin.1, by omega⟩
  · rintro ⟨h, hmem, hbad⟩
    have h1 := hmax.2 h hmem
    have h2 := hmin.2 h hmem
    omega

/-- The boolean tested at source line 371 is false iff every requested horizon
lies inside `[0, n-1]`. -/
theorem horizons_cond_false_iff (n : Nat) (a : Int) (as : List Int) :
    (decide (as.foldl max a > (n : Int) - 1) || decide (as.foldl min a < 0)) = false
      ↔ ∀ h ∈ a :: as, 0 ≤ h ∧ h ≤ (n : Int) - 1 := by
  have hmax := foldl_max_spec a as
  have hmin := foldl_min_spec a as
  simp only [Bool.or_eq_false_iff, decide_eq_false_iff_not, not_lt]
  constructor
  · rintro ⟨h1, h2⟩ h hmem
    have := hmax.2 h hmem
    have := hmin.2 h hmem
    omega
  · intro hall
    have h1 := hall _ hmax.1
    have h2 := hall _ hmin.1
    omega

/-- C10: the horizon validation tests only `max(horizons) > n - 1` and
`min(horizons) < 0`; for every non-empty horizons list this rejects exactly when
some element lies outside `[0, n-1]` and accepts exactly when every element lies
inside, while for an empty (non-`None`) horizons list the check itself fails with
Python's empty-`max` error, so `explain` called with an empty horizons list fails
rather than validating vacuously or returning an empty result. -/
theorem horizon_check_max_min_equivalence (n : Nat) (a : Int) (as : List Int) :
    ((checkHorizonsPart n (some (a :: as)) = .error horizonsTooLargeErr)
        ↔ ∃ h ∈ a :: as, ¬(0 ≤ h ∧ h ≤ (n : Int) - 1))
      ∧ ((checkHorizonsPart n (some (a :: as)) = .ok (a :: as))
        ↔ ∀ h ∈ a :: as, 0 ≤ h ∧ h ≤ (n : Int) - 1)
      ∧ checkHorizonsPart n (some []) = .error pyEmptyMaxErr
      ∧ (∀ (kt : List String) (ρ : Type) (compute : List Int → List String → ρ),
          explainValidated n kt (some []) none compute = .error pyEmptyMaxErr) := by
  refine ⟨?_, ?_, rfl, fun kt ρ compute => rfl⟩
  · cases hb : (decide (as.foldl max a > (n : Int) - 1) || decide (as.foldl min a < 0)) with
    | false =>
      constructor
      · intro herr
        exfalso
        revert herr
        simp [checkHorizonsPart, hb]
      · intro hex
        exact absurd hb (by simp [(horizons_cond_true_iff n a as).mpr hex])
    | true =>
      constructor
      · intro _
        exact (horizons_cond_true_iff n a as).mp hb
      · intro _
        simp [checkHorizonsPart, hb]
  · cases hb : (decide (as.foldl max a > (n : Int) - 1) || decide (as.foldl min a < 0)) with
    | false =>
      constructor
      · intro _
        exact (horizons_cond_false_iff n a as).mp hb
      · intro _
        simp [checkHorizonsPart, hb]
    | true =>
      constructor
      · intro hok
        exfalso
        revert hok
        simp [checkHorizonsPart, hb]
      · intro hall
        exact absurd hb (by simp [(horizons_cond_false_iff n a as).mpr hall])

/-- C6: `explain` raises a descriptive invalid-argument error — the same error
for every possible downstream computation, i.e. before any explanation
computation is performed — whenever a requested target name is unknown or a
requested horizon lies outside `[0, n-1]`; omitted target names default to all
known target components and omitted horizons default to `0..n-1`. -/
theorem explain_validates_arguments (n : Nat) (kt : List String) :
    (∀ (ts : List String) (hzs : Option (List Int)),
        (∃ t ∈ ts, t ∉ kt) →
        ∀ (ρ : Type) (compute : List Int → List String → ρ),
          explainValidated n kt hzs (some ts) compute = .error targetNamesErr)
      ∧ (∀ (hs : List Int) (tns : Option (List String)),
          (∃ h ∈ hs, h < 0 ∨ h > (n : Int) - 1) →
          ∀ (ρ : Type) (compute : List Int → List String → ρ),
            ∃ e, explainValidated n kt (some hs) tns compute = .error e)
      ∧ (∀ (hzs : Option (List Int)) (ρ : Type) (compute : List Int → List String → ρ),
          explainValidated n kt hzs none compute
            = (checkHorizonsPart n hzs).map (fun hs => compute hs kt))
      ∧ (∀ (tns : Option (List String)) (ρ : Type) (compute : List Int → List String → ρ),
          explainValidated n kt none tns compute
            = (checkTargetsPart kt tns).map
                (fun ts => compute ((List.range n).map (fun i => (i : Int))) ts)) := by
  refine ⟨?_, ?_, ?_, ?_⟩
  · rintro ts hzs ⟨t, htmem, htnotin⟩ ρ compute
    have hanyt : ts.any (fun t => !(kt.contains t)) = true :=
      List.any_eq_true.mpr ⟨t, htmem, by simp [List.elem_iff, htnotin]⟩
    have hct : checkTargetsPart kt (some ts) = .error targetNamesErr := by
      simp only [checkTargetsPart]
      rw [if_pos hanyt]
    simp [explainValidated, checkHorizonsAndTargets, hct]
  · rintro hs tns ⟨h, hmem, hbad⟩ ρ compute
    rcases hct : checkTargetsPart kt tns with e | ts'
    · exact ⟨e, by simp [explainValidated, checkHorizonsAndTargets, hct]⟩
    · cases hs with
      | nil => exact absurd hmem (List.not_mem_nil h)
      | cons a as =>
        have hb := (horizons_cond_true_iff n a as).mpr ⟨h, hmem, by omega⟩
        exact ⟨horizonsTooLargeErr,
          by simp [explainValidated, checkHorizonsAndTargets, hct, checkHorizonsPart, hb]⟩
  · intro hzs ρ compute
    rcases hch : checkHorizonsPart n hzs with e | hs <;>
      simp [explainValidated, checkHorizonsAndTargets, checkTargetsPart, hch, Except.map]
  · intro tns ρ compute
    rcases hct : checkTargetsPart kt tns with e | ts <;>
      simp [explainValidated, checkHorizonsAndTargets, hct, checkHorizonsPart, Except.map]

/-- Instantiation of `explain_validates_arguments`: with known targets
`["a", "b"]` and `n = 2`, the unknown target name "c" and the out-of-range
horizon 5 are both rejected. -/
theorem explain_validates_arguments_witness :
    explainValidated 2 ["a", "b"] none (some ["c"])
        (fun hs ts => hs.length + ts.length) = .error targetNamesErr
      ∧ ∃ e, explainValidated 2 ["a", "b"] (some [5]) none
          (fun hs ts => hs.length + ts.length) = .error e :=
  ⟨(explain_validates_arguments 2 ["a", "b"]).1 ["c"] none
      ⟨"c", by decide, by decide⟩ Nat _,
    (explain_validates_arguments 2 ["a", "b"]).2.1 [5] none
      ⟨5, by decide, by decide⟩ Nat _⟩

/-! ### C1: slicing of the joint model's raw explanation -/

/-- C1: for a joint multi-output model, the single handle is invoked exactly once,
on the foreground matrix; when the model is not `single_output`, the returned
entry for the `i`-th requested horizon `h` and the `j`-th requested target `t`
holds the raw values sliced at index `target_dim * h + j` along the last axis and
the raw base values at that index flattened to one dimension; when the model is
`single_output`, the raw untensored result is used directly without slicing. In
both cases the raw result's feature names and the foreground matrix's row index
are attached to each returned entry. -/
theorem joint_shap_explanations_slice {α ι : Type} (target_dim : Nat)
    (explainer3 : Frame ι → RawExplanation3 α) (explainer2 : Frame ι → RawExplanation2 α)
    (X : Frame ι) (horizons : List Nat) (target_names : List String) :
    (shapExplanationsJointMulti target_dim explainer3 X horizons target_names).1 = [X]
      ∧ (∀ (i j h : Nat) (t : String),
          horizons[i]? = some h → target_names[j]? = some t →
          ∃ inner,
            (shapExplanationsJointMulti target_dim explainer3 X horizons target_names).2[i]?
                = some (h, inner)
              ∧ inner[j]? = some (t,
                  { values := fun r f => (explainer3 X).values r f (target_dim * h + j)
                    base_values := fun r => (explainer3 X).base_values r (target_dim * h + j)
                    feature_names := (explainer3 X).feature_names
                    time_index := X.index }))
      ∧ (shapExplanationsJointSingle explainer2 X horizons target_names).1 = [X]
      ∧ (∀ (i j h : Nat) (t : String),
          horizons[i]? = some h → target_names[j]? = some t →
          ∃ inner,
            (shapExplanationsJointSingle explainer2 X horizons target_names).2[i]?
                = some (h, inner)
              ∧ inner[j]? = some (t,
                  { values := (explainer2 X).values
                    base_values := (explainer2 X).base_values
                    feature_names := (explainer2 X).feature_names
                    time_index := X.index })) := by
  refine ⟨rfl, ?_, rfl, ?_⟩
  · intro i j h t hi hj
    refine ⟨target_names.enum.map (fun p =>
      (p.2,
       { values := fun r f => (explainer3 X).values r f (target_dim * h + p.1)
         base_values := fun r => (explainer3 X).base_values r (target_dim * h + p.1)
         feature_names := (explainer3 X).feature_names
         time_index := X.index })), ?_, ?_⟩
    · simp [shapExplanationsJointMulti, List.getElem?_map, hi]
    · simp [List.getElem?_map, List.getElem?_enum, hj]
  · intro i j h t hi hj
    refine ⟨target_names.enum.map (fun p =>
      (p.2,
       { values := (explainer2 X).values
         base_values := (explainer2 X).base_values
         feature_names := (explainer2 X).feature_names
         time_index := X.index })), ?_, ?_⟩
    · simp [shapExplanationsJointSingle, List.getElem?_map, hi]
    · simp [List.getElem?_map, List.getElem?_enum, hj]

/-- Instantiation of `joint_shap_explanations_slice` at a two-target model with
requested horizon 1 and requested target index 0: the selected output column is
`target_dim * h + t_idx = 2 * 1 + 0 = 2`, as in the spec's example. -/
theorem joint_shap_explanations_slice_witness :
    ∃ inner,
      (shapExplanationsJointMulti 2
          (fun _ => ⟨fun _ _ k => k, fun _ k => k + 100, ["f1"]⟩)
          (⟨[7]⟩ : Frame Nat) [1] ["u", "v"]).2[0]?
          = some (1, inner)
        ∧ inner[0]? = some ("u",
            { values := fun _ _ => 2
              base_values := fun _ => 102
              feature_names := ["f1"]
              time_index := [7] }) :=
  (joint_shap_explanations_slice 2
      (fun _ => ⟨fun _ _ k => k, fun _ k => k + 100, ["f1"]⟩)
      (fun _ => ⟨fun _ _ => 0, fun _ => 0, []⟩)
      (⟨[7]⟩ : Frame Nat) [1] ["u", "v"]).2.1 0 0 1 "u" rfl rfl

/-! ### C2: number and binding of the explainer handles -/

/-- If every element maps to a success, the sequenced loop succeeds with the
mapped list. -/
theorem exceptMapList_ok {ε α β : Type} (f : α → Except ε β) (g : α → β)
    (l : List α) (h : ∀ a ∈ l, f a = .ok (g a)) :
    exceptMapList f l = .ok (l.map g) := by
  induction l with
  | nil => rfl
  | cons a as ih =>
    have ha := h a (List.mem_cons_self a as)
    have has := ih (fun x hx => h x (List.mem_cons_of_mem _ hx))
    simp [exceptMapList, ha, has]

/-- C2: at construction, when the wrapped estimator is a `MultiOutputRegressor`,
exactly `n * target_dim` handles are built, indexed first by horizon `i < n` and
then by target index `j < target_dim`, the `(i, j)` handle being the builder's
result for the `(i, j)` estimator slice and the shared background matrix;
otherwise exactly one handle is built, the builder's result for the single
wrapped estimator and the full background matrix, regardless of `n` and
`target_dim`. -/
theorem init_explainers_handles {E P M K : Type} (n target_dim : Nat)
    (slot : Nat → Nat → SkModel E P) (model_model : SkModel E P) (bg : M)
    (sm : Option ShapMethod) (kwargs : Kwargs K)
    (eng : Nat → Nat → ShapEngine E P M (Kwargs K))
    (hbuild : ∀ i j, buildExplainerSklearn (slot i j) bg sm kwargs = .ok (eng i j)) :
    (∃ g, initExplainers true n target_dim slot model_model bg sm kwargs
          = .ok (.grid g)
        ∧ g.length = n
        ∧ (∀ row ∈ g, row.length = target_dim)
        ∧ g.flatten.length = n * target_dim
        ∧ (∀ i j, i < n → j < target_dim →
            ∃ row, g[i]? = some row ∧ row[j]? = some (eng i j)))
      ∧ (∀ e, buildExplainerSklearn model_model bg sm kwargs = .ok e →
          initExplainers false n target_dim slot model_model bg sm kwargs
            = .ok (.single e)) := by
  constructor
  · refine ⟨(List.range n).map (fun i => (List.range target_dim).map (eng i)), ?_, ?_, ?_, ?_, ?_⟩
    · have houter : exceptMapList (fun i =>
          exceptMapList (fun j =>
              buildExplainerSklearn (slot i j) bg sm kwargs)
            (List.range target_dim)) (List.range n)
          = .ok ((List.range n).map (fun i => (List.range target_dim).map (eng i))) :=
        exceptMapList_ok _ _ _ (fun i _ =>
          exceptMapList_ok _ _ _ (fun j _ => hbuild i j))
      simp [initExplainers, houter]
    · simp
    · intro row hrow
      rcases List.mem_map.mp hrow with ⟨i, _, hi⟩
      simp [← hi]
    · rw [List.length_flatten]
      have hmap : ((List.range n).map (fun i => (List.range target_dim).map (eng i))).map
            List.length = List.replicate n target_dim := by
        rw [List.map_map]
        have : (List.length ∘ fun i => (List.range target_dim).map (eng i))
            = fun _ => target_dim := by
          funext i
          simp
        rw [this, List.map_const']
        simp
      rw [hmap, List.sum_replicate, smul_eq_mul]
    · intro i j hi hj
      refine ⟨(List.range target_dim).map (eng i), ?_, ?_⟩
      · simp [List.getElem?_map, List.getElem?_range hi]
      · simp [List.getElem?_map, List.getElem?_range hj]
  · intro e he
    simp [initExplainers, he]

/-- Instantiation of `init_explainers_handles`: a 3-horizon, 2-target
`MultiOutputRegressor` over linear estimator slices yields a 3-by-2 grid of six
linear-engine handles, each bound to its slice and the shared background; the
joint case yields the single handle over the wrapped estimator. -/
theorem init_explainers_handles_witness :
    (∃ g, initExplainers true 3 2 (fun i j => ⟨(i, j), (i, j), "LinearRegression"⟩)
          (⟨(9, 9), (9, 9), "LinearRegression"⟩ : SkModel (Nat × Nat) (Nat × Nat))
          (5 : Nat) (some .LINEAR) (⟨none, 0⟩ : Kwargs Nat)
          = .ok (.grid g)
        ∧ g.length = 3
        ∧ (∀ row ∈ g, row.length = 2)
        ∧ g.flatten.length = 3 * 2
        ∧ (∀ i j, i < 3 → j < 2 →
            ∃ row, g[i]? = some row
              ∧ row[j]? = some (.linearExplainer (i, j) 5 ⟨none, 0⟩)))
      ∧ (∀ e, buildExplainerSklearn
            (⟨(9, 9), (9, 9), "LinearRegression"⟩ : SkModel (Nat × Nat) (Nat × Nat))
            (5 : Nat) (some .LINEAR) (⟨none, 0⟩ : Kwargs Nat) = .ok e →
          initExplainers false 3 2 (fun i j => ⟨(i, j), (i, j), "LinearRegression"⟩)
            ⟨(9, 9), (9, 9), "LinearRegression"⟩ 5 (some .LINEAR) ⟨none, 0⟩
            = .ok (.single e)) :=
  init_explainers_handles 3 2 (fun i j => ⟨(i, j), (i, j), "LinearRegression"⟩)
    ⟨(9, 9), (9, 9), "LinearRegression"⟩ 5 (some .LINEAR) ⟨none, 0⟩
    (fun i j => .linearExplainer (i, j) 5 ⟨none, 0⟩) (fun _ _ => rfl)

/-! ### C4: feature-matrix column names are the fixed pattern, ordered and distinct -/

theorem natChars_lt {n : Nat} (h : n < 10) : natChars n = [digitChar n] := by
  rw [natChars]
  simp [h]

theorem natChars_ge {n : Nat} (h : ¬ n < 10) :
    natChars n = natChars (n / 10) ++ [digitChar (n % 10)] := by
  rw [natChars]
  simp [h]

theorem digitChar_isDigit {n : Nat} (h : n < 10) : (digitChar n).isDigit = true := by
  interval_cases n <;> decide

theorem digitChar_inj {n m : Nat} (hn : n < 10) (hm : m < 10) :
    digitChar n = digitChar m → n = m := by
  interval_cases n <;> interval_cases m <;> decide

theorem natChars_ne_nil (n : Nat) : natChars n ≠ [] := by
  by_cases h : n < 10
  · rw [natChars_lt h]; simp
  · rw [natChars_ge h]; simp

/-- Every character of Python `str(n)` for a natural `n` is a decimal digit. -/
theorem natChars_digits (n : Nat) : ∀ c ∈ natChars n, c.isDigit = true := by
  induction n using Nat.strong_induction_on with
  | _ n ih =>
    by_cases h : n < 10
    · rw [natChars_lt h]
      intro c hc
      simp at hc
      subst hc
      exact digitChar_isDigit h
    · rw [natChars_ge h]
      intro c hc
      rcases List.mem_append.mp hc with hc | hc
      · exact ih (n / 10) (Nat.div_lt_self (by omega) (by omega)) c hc
      · simp at hc
        subst hc
        exact digitChar_isDigit (Nat.mod_lt _ (by omega))

/-- Python `str` is injective on the naturals. -/
theorem natChars_inj : ∀ {n m : Nat}, natChars n = natChars m → n = m := by
  intro n
  induction n using Nat.strong_induction_on with
  | _ n ih =>
    intro m h
    by_cases hn : n < 10 <;> by_cases hm : m < 10
    · rw [natChars_lt hn, natChars_lt hm] at h
      exact digitChar_inj hn hm (by simpa using h)
    · rw [natChars_lt hn, natChars_ge hm] at h
      have hlen := congrArg List.length h
      simp at hlen
      exact absurd hlen (natChars_ne_nil _)
    · rw [natChars_ge hn, natChars_lt hm] at h
      have hlen := congrArg List.length h
      simp at hlen
      exact absurd hlen (natChars_ne_nil _)
    · rw [natChars_ge hn, natChars_ge hm] at h
      have h' := congrArg List.reverse h
      simp only [List.reverse_append, List.reverse_cons, List.reverse_nil,
        List.nil_append, List.singleton_append, List.cons.injEq] at h'
      obtain ⟨h1, h2⟩ := h'
      have e1 : n % 10 = m % 10 :=
        digitChar_inj (Nat.mod_lt _ (by omega)) (Nat.mod_lt _ (by omega)) h1
      have e2 : n / 10 = m / 10 :=
        ih (n / 10) (Nat.div_lt_self (by omega) (by omega)) (List.reverse_injective h2)
      omega

/-- Every character of Python `str(i)` for an integer `i` is a digit or `-`. -/
theorem intChars_numeric (i : Int) : ∀ c ∈ intChars i, isNumC c = true := by
  unfold intChars
  split <;> intro c hc
  · rcases List.mem_cons.mp hc with hc | hc
    · subst hc; decide
    · simp [isNumC, natChars_digits _ c hc]
  · simp [isNumC, natChars_digits _ c hc]

theorem dash_not_in_natChars (n : Nat) : '-' ∉ natChars n := by
  intro hmem
  have := natChars_digits n '-' hmem
  simp at this

/-- Python `str` is injective on the integers. -/
theorem intChars_inj : ∀ {i j : Int}, intChars i = intChars j → i = j := by
  intro i j h
  unfold intChars at h
  split at h <;> split at h
  · have h2 : natChars i.natAbs = natChars j.natAbs := by
      simpa using h
    have := natChars_inj h2
    omega
  · exfalso
    have : '-' ∈ natChars j.toNat := by
      rw [← h]
      exact List.mem_cons_self _ _
    exact dash_not_in_natChars _ this
  · exfalso
    have : '-' ∈ natChars i.toNat := by
      rw [h]
      exact List.mem_cons_self _ _
    exact dash_not_in_natChars _ this
  · have := natChars_inj h
    omega

theorem isPreB_iff : ∀ (nd hay : List Char), isPreB nd hay = true ↔ ∃ t, hay = nd ++ t
  | [], hay => by simp [isPreB]
  | a :: as, [] => by simp [isPreB]
  | a :: as, b :: bs => by
    simp only [isPreB, Bool.and_eq_true, beq_iff_eq]
    rw [isPreB_iff as bs]
    constructor
    · rintro ⟨rfl, t, rfl⟩
      exact ⟨t, rfl⟩
    · rintro ⟨t, ht⟩
      rw [List.cons_append] at ht
      obtain ⟨h1, h2⟩ := List.cons.inj ht
      exact ⟨h1.symm, t, h2⟩

/-- Boolean test that `a` is a final segment of `b`. -/
def isSufB (a b : List Char) : Bool := isPreB a.reverse b.reverse

theorem isSufB_iff (a b : List Char) : isSufB a b = true ↔ ∃ e, b = e ++ a := by
  rw [isSufB, isPreB_iff]
  constructor
  · rintro ⟨t, ht⟩
    refine ⟨t.reverse, ?_⟩
    have := congrArg List.reverse ht
    simpa [List.reverse_append] using this
  · rintro ⟨e, rfl⟩
    exact ⟨e.reverse, by simp [List.reverse_append]⟩

/-- Peeling a numeric suffix: if both sides of an equality are a block ending in a
non-numeric character followed by a numeric tail, the blocks and tails agree. -/
theorem append_numeric_inj {u1 u2 n1 n2 : List Char}
    (h : u1 ++ n1 = u2 ++ n2)
    (hn1 : ∀ c ∈ n1, isNumC c = true) (hn2 : ∀ c ∈ n2, isNumC c = true)
    (hu1 : ∀ c, u1.getLast? = some c → isNumC c = false)
    (hu2 : ∀ c, u2.getLast? = some c → isNumC c = false) :
    u1 = u2 ∧ n1 = n2 := by
  rcases List.append_eq_append_iff.mp h with ⟨e, he1, he2⟩ | ⟨e, he1, he2⟩
  · cases e with
    | nil => simp at he1 he2; exact ⟨he1.symm, he2⟩
    | cons x xs =>
      exfalso
      have hne : (x :: xs : List Char) ≠ [] := by simp
      have hlast : (x :: xs).getLast hne ∈ x :: xs := List.getLast_mem hne
      have hlastnum : isNumC ((x :: xs).getLast hne) = true := by
        apply hn1
        rw [he2]
        exact List.mem_append_left _ hlast
      have hgl : u2.getLast? = some ((x :: xs).getLast hne) := by
        rw [he1, List.getLast?_append]
        rw [List.getLast?_eq_getLast _ hne]
        rfl
      have := hu2 _ hgl
      rw [hlastnum] at this
      exact Bool.true_eq_false.mp this
  · cases e with
    | nil => simp at he1 he2; exact ⟨he1, he2.symm⟩
    | cons x xs =>
      exfalso
      have hne : (x :: xs : List Char) ≠ [] := by simp
      have hlast : (x :: xs).getLast hne ∈ x :: xs := List.getLast_mem hne
      have hlastnum : isNumC ((x :: xs).getLast hne) = true := by
        apply hn2
        rw [he2]
        exact List.mem_append_left _ hlast
      have hgl : u1.getLast? = some ((x :: xs).getLast hne) := by
        rw [he1, List.getLast?_append]
        rw [List.getLast?_eq_getLast _ hne]
        rfl
      have := hu1 _ hgl
      rw [hlastnum] at this
      exact Bool.true_eq_false.mp this

/-- If two blocks ending in known separator pieces agree and neither piece is a
proper final segment of the other, the pieces and the leading parts agree. -/
theorem append_sep_inj {c1 c2 s1 s2 : List Char}
    (h : c1 ++ s1 = c2 ++ s2)
    (hOK : s1 = s2 ∨ (isSufB s1 s2 = false ∧ isSufB s2 s1 = false)) :
    s1 = s2 ∧ c1 = c2 := by
  rcases List.append_eq_append_iff.mp h with ⟨e, he1, he2⟩ | ⟨e, he1, he2⟩
  · have hsuf : isSufB s2 s1 = true := (isSufB_iff s2 s1).mpr ⟨e, he2⟩
    rcases hOK with heq | ⟨_, hno⟩
    · subst heq
      have he : e = [] := by
        have hlen := congrArg List.length he2
        simp at hlen
        exact hlen
      subst he
      simp at he1
      exact ⟨rfl, he1.symm⟩
    · rw [hno] at hsuf
      exact absurd hsuf (by simp)
  · have hsuf : isSufB s1 s2 = true := (isSufB_iff s1 s2).mpr ⟨e, he2⟩
    rcases hOK with heq | ⟨hno, _⟩
    · subst heq
      have he : e = [] := by
        have hlen := congrArg List.length he2
        simp at hlen
        exact hlen
      subst he
      simp at he1
      exact ⟨rfl, he1⟩
    · rw [hno] at hsuf
      exact absurd hsuf (by simp)

theorem getLast_append_not_num {cl sl : List Char} (hne : sl ≠ [])
    (hg : ∀ c, sl.getLast? = some c → isNumC c = false) :
    ∀ c, (cl ++ sl).getLast? = some c → isNumC c = false := by
  intro c hc
  have hsome : sl.getLast?.isSome = true := List.getLast?_isSome.mpr hne
  obtain ⟨x, hx⟩ := Option.isSome_iff_exists.mp hsome
  rw [List.getLast?_append, hx] at hc
  have hxc : some x = some c := hc
  obtain rfl := Option.some.inj hxc
  exact hg _ hx

/-- A column name determines its separator piece, its component and its lag. -/
theorem mkName_inj {c1 c2 s1 s2 : List Char} {l1 l2 : Int}
    (hOK : s1 = s2 ∨ (isSufB s1 s2 = false ∧ isSufB s2 s1 = false))
    (hg1 : ∀ c, s1.getLast? = some c → isNumC c = false) (hne1 : s1 ≠ [])
    (hg2 : ∀ c, s2.getLast? = some c → isNumC c = false) (hne2 : s2 ≠ [])
    (h : mkName c1 s1 l1 = mkName c2 s2 l2) :
    s1 = s2 ∧ c1 = c2 ∧ l1 = l2 := by
  have h' : (c1 ++ s1) ++ intChars l1 = (c2 ++ s2) ++ intChars l2 := by
    simpa [mkName, List.append_assoc] using h
  obtain ⟨hcs, hnum⟩ := append_numeric_inj h' (intChars_numeric l1) (intChars_numeric l2)
    (getLast_append_not_num hne1 hg1) (getLast_append_not_num hne2 hg2)
  obtain ⟨hs, hc⟩ := append_sep_inj hcs hOK
  exact ⟨hs, hc, intChars_inj hnum⟩

/-- One kind block has no duplicate names when its lags and components have none. -/
theorem kindNames_nodup (ls : List Int) (comps : List (List Char)) (sep : List Char)
    (hls : ls.Nodup) (hc : comps.Nodup)
    (hg : ∀ c, sep.getLast? = some c → isNumC c = false) (hne : sep ≠ []) :
    (kindNames (some ls) comps sep).Nodup := by
  rw [kindNames, List.nodup_flatMap]
  constructor
  · intro lag _
    refine hc.map ?_
    intro a b hab
    exact (mkName_inj (Or.inl rfl) hg hne hg hne hab).2.1
  · refine hls.imp ?_
    intro a b hab
    simp only [Function.onFun]
    intro x hxa hxb
    rcases List.mem_map.mp hxa with ⟨ca, _, hca⟩
    rcases List.mem_map.mp hxb with ⟨cb, _, hcb⟩
    have : mkName ca sep a = mkName cb sep b := by rw [hca, hcb]
    exact hab (mkName_inj (Or.inl rfl) hg hne hg hne this).2.2

/-- Blocks of different kinds share no name. -/
theorem kindNames_disjoint (l1 l2 : Option (List Int))
    (cs1 cs2 : List (List Char)) (s1 s2 : List Char)
    (hsep : isSufB s1 s2 = false ∧ isSufB s2 s1 = false) (hnesep : s1 ≠ s2)
    (hg1 : ∀ c, s1.getLast? = some c → isNumC c = false) (hne1 : s1 ≠ [])
    (hg2 : ∀ c, s2.getLast? = some c → isNumC c = false) (hne2 : s2 ≠ []) :
    List.Disjoint (kindNames l1 cs1 s1) (kindNames l2 cs2 s2) := by
  cases l1 with
  | none => intro x hx; simp [kindNames] at hx
  | some ls1 =>
    cases l2 with
    | none => intro x _ hx; simp [kindNames] at hx
    | some ls2 =>
      intro x hx1 hx2
      rw [kindNames] at hx1 hx2
      rcases List.mem_flatMap.mp hx1 with ⟨a, _, hxa⟩
      rcases List.mem_flatMap.mp hx2 with ⟨b, _, hxb⟩
      rcases List.mem_map.mp hxa with ⟨ca, _, hca⟩
      rcases List.mem_map.mp hxb with ⟨cb, _, hcb⟩
      have heq : mkName ca s1 a = mkName cb s2 b := by rw [hca, hcb]
      exact hnesep (mkName_inj (Or.inr hsep) hg1 hne1 hg2 hne2 heq).1

theorem sep_getLast_not_num {sl : List Char} {g : Char} (hgl : sl.getLast? = some g)
    (hnum : isNumC g = false) : ∀ c, sl.getLast? = some c → isNumC c = false := by
  intro c hc
  rw [hgl] at hc
  obtain rfl := Option.some.inj hc
  exact hnum

theorem sepTarget_not_num : ∀ c, sepTargetChars.getLast? = some c → isNumC c = false :=
  sep_getLast_not_num (g := 'g') (by decide) (by decide)

theorem sepPast_not_num : ∀ c, sepPastChars.getLast? = some c → isNumC c = false :=
  sep_getLast_not_num (g := 'g') (by decide) (by decide)

theorem sepFut_not_num : ∀ c, sepFutChars.getLast? = some c → isNumC c = false :=
  sep_getLast_not_num (g := 'g') (by decide) (by decide)

/-- The whole column-name list has no duplicates. -/
theorem lagsNamesList_nodup
    (lt lp lf : Option (List Int)) (tc pc fc : List (List Char))
    (hlt : ∀ ls, lt = some ls → ls.Nodup)
    (hlp : ∀ ls, lp = some ls → ls.Nodup)
    (hlf : ∀ ls, lf = some ls → ls.Nodup)
    (htc : tc.Nodup) (hpc : pc.Nodup) (hfc : fc.Nodup) :
    (lagsNamesList lt lp lf tc pc fc).Nodup := by
  have hT : (kindNames lt tc sepTargetChars).Nodup := by
    cases lt with
    | none => simp [kindNames]
    | some ls => exact kindNames_nodup ls tc _ (hlt ls rfl) htc sepTarget_not_num (by decide)
  have hP : (kindNames lp pc sepPastChars).Nodup := by
    cases lp with
    | none => simp [kindNames]
    | some ls => exact kindNames_nodup ls pc _ (hlp ls rfl) hpc sepPast_not_num (by decide)
  have hF : (kindNames lf fc sepFutChars).Nodup := by
    cases lf with
    | none => simp [kindNames]
    | some ls => exact kindNames_nodup ls fc _ (hlf ls rfl) hfc sepFut_not_num (by decide)
  have dTP : List.Disjoint (kindNames lt tc sepTargetChars) (kindNames lp pc sepPastChars) :=
    kindNames_disjoint lt lp tc pc _ _ ⟨by decide, by decide⟩ (by decide)
      sepTarget_not_num (by decide) sepPast_not_num (by decide)
  have dTF : List.Disjoint (kindNames lt tc sepTargetChars) (kindNames lf fc sepFutChars) :=
    kindNames_disjoint lt lf tc fc _ _ ⟨by decide, by decide⟩ (by decide)
      sepTarget_not_num (by decide) sepFut_not_num (by decide)
  have dPF : List.Disjoint (kindNames lp pc sepPastChars) (kindNames lf fc sepFutChars) :=
    kindNames_disjoint lp lf pc fc _ _ ⟨by decide, by decide⟩ (by decide)
      sepPast_not_num (by decide) sepFut_not_num (by decide)
  rw [lagsNamesList]
  refine List.Nodup.append (List.Nodup.append hT hP dTP) hF ?_
  rw [List.disjoint_append_left]
  exact ⟨dTF, dPF⟩

/-- C4: for every feature matrix built (background or foreground), given distinct
component names per kind and distinct lag values per kind, the column names are
exactly the strings `component + "_target_lag" + str(lag)`,
`component + "_past_cov_lag" + str(lag)` and `component + "_fut_cov_lag" + str(lag)`,
in the fixed order — all target lags first (outer loop over lag value, inner loop
over target component in series component order), then all past-covariate lags,
then all future-covariate lags — assigned positionally to the columns of the
lagged matrix, and all pairwise distinct. -/
theorem feature_matrix_column_names {ι : Type}
    (lt lp lf : Option (List Int)) (tc pc fc : List (List Char))
    (hlt : ∀ ls, lt = some ls → ls.Nodup)
    (hlp : ∀ ls, lp = some ls → ls.Nodup)
    (hlf : ∀ ls, lf = some ls → ls.Nodup)
    (htc : tc.Nodup) (hpc : pc.Nodup) (hfc : fc.Nodup)
    (lagged : LaggedData ι) (ns : Option Nat) (train : Bool) :
    (∀ x, createRegressionModelShapX lt lp lf tc pc fc lagged ns train = .ok x →
        x.columnNames = lagsNamesList lt lp lf tc pc fc)
      ∧ lagsNamesList lt lp lf tc pc fc
          = (lt.elim [] (fun ls => ls.flatMap (fun lag =>
                tc.map (fun c => c ++ "_target_lag".data ++ intChars lag))))
            ++ (lp.elim [] (fun ls => ls.flatMap (fun lag =>
                pc.map (fun c => c ++ "_past_cov_lag".data ++ intChars lag))))
            ++ (lf.elim [] (fun ls => ls.flatMap (fun lag =>
                fc.map (fun c => c ++ "_fut_cov_lag".data ++ intChars lag))))
      ∧ (lagsNamesList lt lp lf tc pc fc).Nodup := by
  refine ⟨?_, ?_, lagsNamesList_nodup lt lp lf tc pc fc hlt hlp hlf htc hpc hfc⟩
  · intro x hx
    cases train
    · simp [createRegressionModelShapX] at hx
      rw [← hx]
    · by_cases hrow : lagged.nrows ≤ MIN_BACKGROUND_SAMPLE
      · simp [createRegressionModelShapX, hrow] at hx
      · simp [createRegressionModelShapX, hrow] at hx
        rw [← hx]
  · cases lt <;> cases lp <;> cases lf <;> rfl

/-- Instantiation of `feature_matrix_column_names` at target lags `[-1, -2]` over
components "price" and "vol", past-covariate lag `[-3]` over component "price",
and no future covariates: the six resulting names are pairwise distinct (the
shared component name "price" across kinds does not collide). -/
theorem feature_matrix_column_names_witness :
    (lagsNamesList (some [-1, -2]) (some [-3]) none
        ["price".data, "vol".data] ["price".data] []).Nodup :=
  (feature_matrix_column_names (some [-1, -2]) (some [-3]) none
      ["price".data, "vol".data] ["price".data] []
      (fun ls hls => by cases hls; decide)
      (fun ls hls => by cases hls; decide)
      (fun ls hls => by cases hls)
      (by decide) (by decide) (by decide)
      (⟨12, []⟩ : LaggedData Nat) none false).2.2

end DartsShap
